import Mathlib

/-!
Verification development for the `notify` repository
(github.com/Doraverse-Workspace/notify).

The repository provides a registry of named notification backends
("notifiers") with single-target send, synchronous broadcast and
asynchronous fan-out broadcast, plus a process-wide global singleton
wrapper (`global.go`).

The core `Manager` (registry + dispatch) is specified in the spec but its
source file is not present in the checkout; per the spec it is modelled
here faithfully from the spec's words (each such definition is marked
`Modelled from the spec:`).  The global wrapper (`Init`, `Setup`,
`Global`, `Reset`, and the package-level functions) and the mock notifier
used by its tests are translated directly from `global.go`.

Concurrency is modelled sequentially: a channel drained to completion is
modelled as the list of the results it delivers, and a cancellable Go
`context.Context` as a record carrying its cancellation flag.
-/

namespace Notify

/-- A Go `context.Context`, reduced to the one observable the code uses:
whether it has been cancelled (`ctx.Err() != nil`). -/
structure Ctx where
  canceled : Bool

/-- Go `context.Background()`: a context that is not cancelled. -/
def Ctx.background : Ctx := ⟨false⟩

/-- Go `error` values as they occur in this library:
`mk` is a plain `fmt.Errorf` error with no wrapped cause,
`canceledErr` is `context.Canceled`,
`notification` is the library's `NotificationError` (provider, message,
optional wrapped cause, cf. README "Error Handling"), and
`wrapped` is `fmt.Errorf("...: %w", err)`. -/
inductive GoError where
  | mk (text : String)
  | canceledErr
  | notification (provider message : String) (cause : Option GoError)
  | wrapped (message : String) (cause : GoError)

/-- Whether an error is (at top level) a `*NotificationError`. -/
def GoError.isNotificationErr : GoError → Bool
  | .notification _ _ _ => true
  | _ => false

/-- Go `errors.Is(e, context.Canceled)`: the error is `context.Canceled`
or wraps it (unwrapping through `NotificationError.Unwrap` and
`fmt.Errorf("%w")`). -/
def GoError.isCancel : GoError → Bool
  | .canceledErr => true
  | .notification _ _ (some c) => c.isCancel
  | .notification _ _ none => false
  | .wrapped _ c => c.isCancel
  | .mk _ => false

/-- A field of an attachment (title, value, "short" display hint). -/
structure Field where
  title : String
  value : String
  short : Bool

/-- A rich-message attachment: title, color, ordered fields. -/
structure Attachment where
  title : String
  color : String
  fields : List Field

/-- The `Message` value object: text body, optional title, optional
priority, optional target channel, attachments, string-keyed metadata. -/
structure Message where
  text : String
  title : String := ""
  priority : String := ""
  channel : String := ""
  attachments : List Attachment := []
  metadata : List (String × String) := []

def PriorityHigh : String := "high"
def PriorityNormal : String := "normal"
def PriorityLow : String := "low"

/-- The `Notifier` capability: report a stable name, send plain text,
send a structured `Message`.  Behaviour of a backend is modelled as pure
functions from context and payload to an optional error
(`none` = success, `some e` = the returned error). -/
structure Notifier where
  name : String
  send : Ctx → String → Option GoError
  sendWithOptions : Ctx → Message → Option GoError

/-- The `NotificationResult` value: produced only by asynchronous broadcast;
which provider was attempted, whether it succeeded, the error if not. -/
structure NotificationResult where
  provider : String
  success : Bool
  error : Option GoError

/-- The registry: Go's `map[string]Notifier`, modelled as an association
list from name to notifier (registration order; a well-formed registry
has pairwise-distinct keys, see `Manager.Wf`). -/
abbrev Reg := List (String × Notifier)

/-- Modelled from the spec: the `Manager` owns only the mapping from
name to Notifier reference (§3). -/
structure Manager where
  notifiers : Reg

/-- Modelled from the spec: `NewManager()` (missing from the checkout)
creates a manager with an empty registry. -/
def Manager.new : Manager := ⟨[]⟩

/-- Modelled from the spec: `Get(name)` returns the Notifier and a found
flag; does not error on miss (§4.1).  `none` is found=false. -/
def Manager.get (m : Manager) (name : String) : Option Notifier :=
  match m.notifiers.find? (fun p => p.1 == name) with
  | some p => some p.2
  | none => none

/-- Modelled from the spec: `List()` returns the registered names (§4.1). -/
def Manager.list (m : Manager) : List String :=
  m.notifiers.map Prod.fst

/-- Modelled from the spec: `Register(notifier)` fails with a
configuration error if the name is empty or already registered
(reject-duplicates policy, §4.1); otherwise adds the entry. -/
def Manager.register (m : Manager) (n : Notifier) : Except GoError Manager :=
  if n.name = "" then
    .error (.mk "notifier name cannot be empty")
  else if (m.notifiers.find? (fun p => p.1 == n.name)).isSome then
    .error (.mk ("notifier already registered: " ++ n.name))
  else
    .ok ⟨m.notifiers ++ [(n.name, n)]⟩

/-- Modelled from the spec: `Unregister(name)` removes the entry if
present; no-op (not an error) if absent; no return value (§4.1). -/
def Manager.unregister (m : Manager) (name : String) : Manager :=
  ⟨m.notifiers.filter (fun p => p.1 != name)⟩

/-- Registry well-formedness: distinct keys (Go map), and every entry is
stored under its notifier's own name (`Register` stores under `Name()`). -/
def Manager.Wf (m : Manager) : Prop :=
  (m.notifiers.map Prod.fst).Nodup ∧ ∀ p ∈ m.notifiers, p.2.name = p.1

/-- Modelled from the spec: errors from a backend are propagated
"wrapped in NotificationError if not already one" (§4.1). -/
def wrapIfNeeded (provider : String) (e : GoError) : GoError :=
  match e with
  | .notification p s c => .notification p s c
  | e => .notification provider "failed to send notification" (some e)

/-- Lift `wrapIfNeeded` over an optional backend result. -/
def wrapResult (provider : String) : Option GoError → Option GoError
  | none => none
  | some e => some (wrapIfNeeded provider e)

/-- Modelled from the spec: `Send(ctx, provider, text)` looks up
`provider`; fails with a "not found" error (surfaced as a
NotificationError, §7) if absent; otherwise delegates to the notifier's
plain-send and propagates its error, wrapped if needed (§4.1).
Returns the error together with the list of provider names whose send
capability was invoked by the call. -/
def Manager.sendT (m : Manager) (ctx : Ctx) (provider text : String) :
    Option GoError × List String :=
  match m.get provider with
  | none => (some (.notification provider "notifier not found" none), [])
  | some nf => (wrapResult provider (nf.send ctx text), [provider])

/-- Projection of `Manager.sendT`: the returned error alone. -/
def Manager.send (m : Manager) (ctx : Ctx) (provider text : String) :
    Option GoError :=
  (m.sendT ctx provider text).1

/-- Modelled from the spec: `SendWithOptions` — same lookup/error
semantics as `Send`, delegating to the structured-send capability. -/
def Manager.sendWithOptionsT (m : Manager) (ctx : Ctx) (provider : String)
    (msg : Message) : Option GoError × List String :=
  match m.get provider with
  | none => (some (.notification provider "notifier not found" none), [])
  | some nf => (wrapResult provider (nf.sendWithOptions ctx msg), [provider])

/-- Projection of `Manager.sendWithOptionsT`: the returned error alone. -/
def Manager.sendWithOptions (m : Manager) (ctx : Ctx) (provider : String)
    (msg : Message) : Option GoError :=
  (m.sendWithOptionsT ctx provider msg).1

/-- Modelled from the spec: the per-notifier outcomes of
`Broadcast(ctx, text)` — every currently-registered notifier's plain
send is attempted exactly once (§4.1); entry `(name, r)` records that
the notifier registered under `name` was invoked once and returned `r`. -/
def Manager.broadcastTrace (m : Manager) (ctx : Ctx) (text : String) :
    List (String × Option GoError) :=
  m.notifiers.map (fun p => (p.1, p.2.send ctx text))

/-- Modelled from the spec: `Broadcast(ctx, text)` returns the ordered
sequence of errors from notifiers that failed; a failure in one notifier
does not prevent the remaining notifiers from being attempted (§4.1). -/
def Manager.broadcast (m : Manager) (ctx : Ctx) (text : String) :
    List GoError :=
  (m.broadcastTrace ctx text).filterMap Prod.snd

/-- Modelled from the spec: per-notifier outcomes of
`BroadcastWithOptions(ctx, msg)` (structured path, same contract). -/
def Manager.broadcastWithOptionsTrace (m : Manager) (ctx : Ctx)
    (msg : Message) : List (String × Option GoError) :=
  m.notifiers.map (fun p => (p.1, p.2.sendWithOptions ctx msg))

/-- Modelled from the spec: `BroadcastWithOptions(ctx, msg)` — same
partial-failure contract as `Broadcast`, structured message path. -/
def Manager.broadcastWithOptions (m : Manager) (ctx : Ctx) (msg : Message) :
    List GoError :=
  (m.broadcastWithOptionsTrace ctx msg).filterMap Prod.snd

/-- Modelled from the spec: `BroadcastAsync(ctx, text)` fans out one unit
of work per registered notifier (a snapshot of the registry) and streams
one `NotificationResult` per notifier; the stream closes only after all
results are emitted (§4.1).  The drained stream is modelled as the list
of results it delivers (delivery order abstracted). -/
def Manager.broadcastAsync (m : Manager) (ctx : Ctx) (text : String) :
    List NotificationResult :=
  m.notifiers.map (fun p =>
    match p.2.send ctx text with
    | none => ⟨p.1, true, none⟩
    | some e => ⟨p.1, false, some e⟩)

/-- Modelled from the spec: `BroadcastAsyncWithOptions(ctx, msg)` —
identical contract, structured message path. -/
def Manager.broadcastAsyncWithOptions (m : Manager) (ctx : Ctx)
    (msg : Message) : List NotificationResult :=
  m.notifiers.map (fun p =>
    match p.2.sendWithOptions ctx msg with
    | none => ⟨p.1, true, none⟩
    | some e => ⟨p.1, false, some e⟩)

/-- The mock notifier of `global.go`'s tests (`mockGlobalNotifier`):
returns `&NotificationError{Provider: name, Message: "mock error"}` from
both send capabilities when `shouldFail`, else succeeds. -/
def mockGlobalNotifier (name : String) (shouldFail : Bool) : Notifier where
  name := name
  send := fun _ _ =>
    if shouldFail then some (.notification name "mock error" none) else none
  sendWithOptions := fun _ _ =>
    if shouldFail then some (.notification name "mock error" none) else none

/-- A registry-mutating call: `Register(n)` or `Unregister(name)`. -/
inductive RegOp where
  | reg (n : Notifier)
  | unreg (name : String)

/-- Apply one registry call to a manager; a failed `Register` (its error
is returned to the caller) leaves the registry unchanged. -/
def applyOp (m : Manager) : RegOp → Manager
  | .reg n =>
    match m.register n with
    | .ok m2 => m2
    | .error _ => m
  | .unreg s => m.unregister s

/-- Apply a finite sequence of registry calls in order. -/
def applyOps (m : Manager) (ops : List RegOp) : Manager :=
  ops.foldl applyOp m

/-- Spec-side name bookkeeping (§8 "Registry exclusivity"): the names
successfully registered and not subsequently unregistered, tracked on
names alone.  A registration succeeds when the name is non-empty and not
currently live; unregistration drops the name. -/
def liveStep (acc : List String) : RegOp → List String
  | .reg n => if n.name ≠ "" ∧ n.name ∉ acc then acc ++ [n.name] else acc
  | .unreg s => acc.filter (fun x => x != s)

/-- Fold `liveStep` over a sequence of registry calls. -/
def liveNames (acc : List String) (ops : List RegOp) : List String :=
  ops.foldl liveStep acc

/-- The `SlackConfig` struct (fields as used in the README and examples). -/
structure SlackConfig where
  token : String
  defaultChannel : String
  username : String := ""
  iconEmoji : String := ""

/-- The `TelegramConfig` struct (fields as used in the README and examples). -/
structure TelegramConfig where
  botToken : String
  chatID : String
  parseMode : String := ""

/-- The backend constructors `NewSlackNotifier` / `NewTelegramNotifier`
are external collaborators (spec §2) whose sources are not in the
checkout; `Setup` is parameterised over them. -/
structure Constructors where
  newSlack : SlackConfig → Except GoError Notifier
  newTelegram : TelegramConfig → Except GoError Notifier

/-- A value passed to `Setup(configs ...interface{})`, classified the way
`Setup`'s type switch classifies it: `*SlackConfig`, `SlackConfig`,
`*TelegramConfig`, `TelegramConfig`, a value implementing `Notifier`,
or anything else (`unsupported`, carrying the Go type name `%T`). -/
inductive SetupConfig where
  | slackPtr (c : SlackConfig)
  | slackVal (c : SlackConfig)
  | telegramPtr (c : TelegramConfig)
  | telegramVal (c : TelegramConfig)
  | custom (n : Notifier)
  | unsupported (typeName : String)

/-- The notifier produced by the non-default cases of `Setup`'s type
switch: configs go through their constructor, a `Notifier` value is used
directly (`global.go` lines 33-47).  The `unsupported` case is handled
before this function is consulted (the switch's `default` returns). -/
def buildNotifier (cs : Constructors) : SetupConfig → Except GoError Notifier
  | .slackPtr c => cs.newSlack c
  | .slackVal c => cs.newSlack c
  | .telegramPtr c => cs.newTelegram c
  | .telegramVal c => cs.newTelegram c
  | .custom n => .ok n
  | .unsupported t => .error (.mk ("unsupported config type: " ++ t))

/-- The loop body of `Setup` (`global.go` lines 29-56): configs are
processed strictly in order; the first unsupported config, constructor
failure or registration failure returns an error immediately, keeping
the registrations already made. -/
def setupLoop (cs : Constructors) (m : Manager) :
    List SetupConfig → Manager × Option GoError
  | [] => (m, none)
  | cfg :: rest =>
    match cfg with
    | .unsupported t => (m, some (.mk ("unsupported config type: " ++ t)))
    | cfg =>
      match buildNotifier cs cfg with
      | .error e => (m, some (.wrapped "failed to create notifier" e))
      | .ok nf =>
        match m.register nf with
        | .error e => (m, some (.wrapped "failed to register notifier" e))
        | .ok m2 => setupLoop cs m2 rest

/-- One step of `setupLoop` errors out at config `cfg` (it is the
switch's `default` case, its constructor fails, or registering the built
notifier fails). -/
def stepFails (cs : Constructors) (m : Manager) (cfg : SetupConfig) : Prop :=
  match cfg with
  | .unsupported _ => True
  | cfg =>
    (∃ e, buildNotifier cs cfg = .error e) ∨
    (∃ nf e, buildNotifier cs cfg = .ok nf ∧ m.register nf = .error e)

/-- The package-level shared state of `global.go`: the `globalManager`
pointer (`none` = nil) and whether the `sync.Once` has fired. -/
structure GlobalState where
  globalManager : Option Manager
  onceDone : Bool

/-- The state before any call: `globalManager` is nil, `once` is fresh. -/
def GlobalState.start : GlobalState := ⟨none, false⟩

/-- Function `Init()` (`global.go` lines 18-22): `once.Do(func() { globalManager =
NewManager() })` — assigns a fresh manager only if the once has not fired. -/
def initOp (s : GlobalState) : GlobalState :=
  if s.onceDone then s else ⟨some Manager.new, true⟩

/-- Function `Global()` (`global.go` lines 63-73): return `globalManager` if
non-nil, else call `Init()` and return `globalManager` (possibly still
nil if the once had already fired — `isSome` of the second component is
what must be shown for reachable states). -/
def globalOp (s : GlobalState) : GlobalState × Option Manager :=
  match s.globalManager with
  | some m => (s, some m)
  | none =>
    let s2 := initOp s
    (s2, s2.globalManager)

/-- Function `Reset()` (`global.go` lines 131-136): `globalManager = nil; once =
sync.Once{}`. -/
def resetOp (_ : GlobalState) : GlobalState := GlobalState.start

/-- The package-level calls of `global.go` that touch the shared state:
`Init`, `Reset`, `Setup(configs...)`, the wrappers `Register`/`Unregister`
(which mutate the manager `Global()` returned), and every other wrapper
(`Get`, `List`, `Send`, `Broadcast`, ... — they call `Global()` and only
read or dispatch, leaving the registry shape to the manager ops). -/
inductive GlobalOp where
  | initCall
  | resetCall
  | setupCall (cs : Constructors) (cfgs : List SetupConfig)
  | registerCall (n : Notifier)
  | unregisterCall (name : String)
  | useGlobal

/-- The state transition of one package-level call.  `Setup` calls
`Init()` then uses `globalManager` directly; the wrappers go through
`Global()`.  In the (unreachable, see `Global_never_nil`) states where
the obtained manager is nil the Go code would dereference nil; the model
leaves the state unchanged there. -/
def globalStep (s : GlobalState) : GlobalOp → GlobalState
  | .initCall => initOp s
  | .resetCall => resetOp s
  | .setupCall cs cfgs =>
    let s1 := initOp s
    match s1.globalManager with
    | none => s1
    | some m => ⟨some (setupLoop cs m cfgs).1, s1.onceDone⟩
  | .registerCall n =>
    let (s1, mo) := globalOp s
    match mo with
    | none => s1
    | some m => ⟨some (applyOp m (.reg n)), s1.onceDone⟩
  | .unregisterCall name =>
    let (s1, mo) := globalOp s
    match mo with
    | none => s1
    | some m => ⟨some (m.unregister name), s1.onceDone⟩
  | .useGlobal => (globalOp s).1

/-- The package state after a finite sequence of calls from process
start. -/
def runGlobal (ops : List GlobalOp) : GlobalState :=
  ops.foldl globalStep GlobalState.start

/-! ## Registry lemmas -/

theorem get_isSome_iff_mem (m : Manager) (name : String) :
    (m.get name).isSome ↔ name ∈ m.list := by
  unfold Manager.get Manager.list
  cases hf : m.notifiers.find? (fun p => p.1 == name) with
  | none =>
    simp only [Option.isSome_none, Bool.false_eq_true, false_iff]
    rw [List.find?_eq_none] at hf
    intro hmem
    obtain ⟨p, hp, hfst⟩ := List.mem_map.mp hmem
    exact hf p hp (by simpa using hfst)
  | some p =>
    simp only [Option.isSome_some, true_iff]
    have hmem := List.mem_of_find?_eq_some hf
    have hpred : p.1 = name := by simpa using List.find?_some hf
    exact List.mem_map.mpr ⟨p, hmem, hpred⟩

theorem get_eq_none_iff (m : Manager) (name : String) :
    m.get name = none ↔
      m.notifiers.find? (fun p => p.1 == name) = none := by
  unfold Manager.get
  cases hf : m.notifiers.find? (fun p => p.1 == name) <;> simp

theorem get_name_eq (m : Manager) (hw : m.Wf) {p : String} {nf : Notifier}
    (h : m.get p = some nf) : nf.name = p := by
  unfold Manager.get at h
  cases hf : m.notifiers.find? (fun q => q.1 == p) with
  | none => rw [hf] at h; exact absurd h (by simp)
  | some q =>
    rw [hf] at h
    have hq : nf = q.2 := by simpa using h.symm
    have hmem := List.mem_of_find?_eq_some hf
    have hpred : q.1 = p := by simpa using List.find?_some hf
    rw [hq, hw.2 q hmem, hpred]

theorem register_error_of_empty (m : Manager) (n : Notifier)
    (h : n.name = "") :
    m.register n = .error (.mk "notifier name cannot be empty") := by
  simp [Manager.register, h]

theorem register_error_of_mem (m : Manager) (n : Notifier)
    (h : (m.get n.name).isSome) :
    ∃ e, m.register n = .error e := by
  by_cases hname : n.name = ""
  · exact ⟨_, register_error_of_empty m n hname⟩
  · have hf : (m.notifiers.find? (fun p => p.1 == n.name)).isSome = true := by
      unfold Manager.get at h
      cases hfind : m.notifiers.find? (fun p => p.1 == n.name) with
      | none => rw [hfind] at h; simp at h
      | some q => simp
    refine ⟨GoError.mk ("notifier already registered: " ++ n.name), ?_⟩
    unfold Manager.register
    rw [if_neg hname, if_pos hf]

theorem register_ok (m : Manager) (n : Notifier)
    (hname : n.name ≠ "") (habs : m.get n.name = none) :
    m.register n = .ok ⟨m.notifiers ++ [(n.name, n)]⟩ := by
  have hf := (get_eq_none_iff m n.name).mp habs
  simp [Manager.register, hname, hf]

theorem wf_new : Manager.new.Wf := by
  constructor
  · simp [Manager.new]
  · intro p hp; simp [Manager.new] at hp

theorem wf_register {m : Manager} {n : Notifier} {m2 : Manager}
    (hw : m.Wf) (h : m.register n = .ok m2) : m2.Wf := by
  unfold Manager.register at h
  by_cases hname : n.name = ""
  · simp [hname] at h
  · rw [if_neg hname] at h
    cases hf : (m.notifiers.find? (fun p => p.1 == n.name)).isSome with
    | true => rw [hf] at h; simp at h
    | false =>
      rw [hf] at h
      simp only [Bool.false_eq_true, if_false, Except.ok.injEq] at h
      subst h
      have hnot : n.name ∉ m.notifiers.map Prod.fst := by
        intro hmem
        have := (get_isSome_iff_mem m n.name).mpr hmem
        unfold Manager.get at this
        cases hfind : m.notifiers.find? (fun p => p.1 == n.name) with
        | none => rw [hfind] at this; simp at this
        | some q => rw [hfind] at hf; simp at hf
      constructor
      · show ((m.notifiers ++ [(n.name, n)]).map Prod.fst).Nodup
        rw [List.map_append]
        rw [List.nodup_append]
        refine ⟨hw.1, by simp, ?_⟩
        intro a ha hb
        simp only [List.map_cons, List.map_nil, List.mem_singleton] at hb
        subst hb
        exact hnot ha
      · intro p hp
        rcases List.mem_append.mp hp with hl | hr
        · exact hw.2 p hl
        · simp only [List.mem_singleton] at hr
          subst hr
          rfl

theorem wf_unregister {m : Manager} (hw : m.Wf) (name : String) :
    (m.unregister name).Wf := by
  constructor
  · show ((m.notifiers.filter (fun p => p.1 != name)).map Prod.fst).Nodup
    have hcomm :
        (m.notifiers.map Prod.fst).filter (fun x => x != name)
          = (m.notifiers.filter (fun p => p.1 != name)).map Prod.fst :=
      List.filter_map (p := fun x => x != name) Prod.fst m.notifiers
    rw [← hcomm]
    exact hw.1.filter _
  · intro p hp
    exact hw.2 p (List.mem_of_mem_filter hp)

theorem unregister_list (m : Manager) (name : String) :
    (m.unregister name).list = m.list.filter (fun x => x != name) := by
  show (m.notifiers.filter (fun p => p.1 != name)).map Prod.fst
    = (m.notifiers.map Prod.fst).filter (fun x => x != name)
  exact (List.filter_map (p := fun x => x != name) Prod.fst m.notifiers).symm

theorem unregister_get_self (m : Manager) (name : String) :
    (m.unregister name).get name = none := by
  rw [get_eq_none_iff]
  rw [List.find?_eq_none]
  intro p hp
  have := List.of_mem_filter hp
  simp only [bne_iff_ne, ne_eq] at this
  simpa using this

theorem find_filter_ne (l : Reg) (name other : String) (h : other ≠ name) :
    (l.filter (fun p => p.1 != name)).find? (fun p => p.1 == other)
      = l.find? (fun p => p.1 == other) := by
  induction l with
  | nil => simp
  | cons a t ih =>
    by_cases ha : a.1 = name
    · have hkeep : (a.1 != name) = false := by simp [ha]
      have hother : (a.1 == other) = false := by
        rw [ha, beq_eq_false_iff_ne]
        exact fun heq => h heq.symm
      rw [List.filter_cons_of_neg (by simp [ha])]
      rw [List.find?_cons_of_neg _ (by simp [hother])]
      exact ih
    · rw [List.filter_cons_of_pos (by simpa using ha)]
      by_cases hb : a.1 = other
      · rw [List.find?_cons_of_pos _ (by simpa using hb),
          List.find?_cons_of_pos _ (by simpa using hb)]
      · rw [List.find?_cons_of_neg _ (by simpa using hb),
          List.find?_cons_of_neg _ (by simpa using hb)]
        exact ih

theorem unregister_get_other (m : Manager) {name other : String}
    (h : other ≠ name) : (m.unregister name).get other = m.get other := by
  unfold Manager.get Manager.unregister
  rw [find_filter_ne m.notifiers name other h]

theorem unregister_absent (m : Manager) {name : String}
    (h : name ∉ m.list) : m.unregister name = m := by
  unfold Manager.unregister
  congr 1
  rw [List.filter_eq_self]
  intro p hp
  simp only [bne_iff_ne, ne_eq]
  intro heq
  exact h (heq ▸ List.mem_map.mpr ⟨p, hp, rfl⟩)

theorem applyOp_list (m : Manager) (hw : m.Wf) (op : RegOp) :
    (applyOp m op).list = liveStep m.list op ∧ (applyOp m op).Wf := by
  cases op with
  | reg n =>
    by_cases hname : n.name = ""
    · have herr := register_error_of_empty m n hname
      have : applyOp m (.reg n) = m := by simp [applyOp, herr]
      rw [this]
      refine ⟨?_, hw⟩
      simp [liveStep, hname]
    · by_cases hmem : n.name ∈ m.list
      · obtain ⟨e, herr⟩ :=
          register_error_of_mem m n ((get_isSome_iff_mem m n.name).mpr hmem)
        have : applyOp m (.reg n) = m := by simp [applyOp, herr]
        rw [this]
        refine ⟨?_, hw⟩
        simp [liveStep, hmem]
      · have habs : m.get n.name = none := by
          cases hg : m.get n.name with
          | none => rfl
          | some q =>
            exact absurd
              ((get_isSome_iff_mem m n.name).mp (by rw [hg]; rfl)) hmem
        have hok := register_ok m n hname habs
        have : applyOp m (.reg n) = ⟨m.notifiers ++ [(n.name, n)]⟩ := by
          simp [applyOp, hok]
        rw [this]
        constructor
        · show (m.notifiers ++ [(n.name, n)]).map Prod.fst
            = liveStep m.list (.reg n)
          rw [List.map_append]
          simp only [liveStep, List.map_cons, List.map_nil]
          exact (if_pos ⟨hname, hmem⟩).symm
        · exact wf_register hw hok
  | unreg s =>
    refine ⟨?_, wf_unregister hw s⟩
    show (m.unregister s).list = m.list.filter (fun x => x != s)
    exact unregister_list m s

theorem applyOps_list (ops : List RegOp) :
    ∀ m : Manager, m.Wf →
      (applyOps m ops).list = liveNames m.list ops ∧ (applyOps m ops).Wf := by
  induction ops with
  | nil => intro m hw; exact ⟨rfl, hw⟩
  | cons op rest ih =>
    intro m hw
    obtain ⟨hlist, hwf⟩ := applyOp_list m hw op
    obtain ⟨hl2, hw2⟩ := ih (applyOp m op) hwf
    refine ⟨?_, hw2⟩
    show (applyOps (applyOp m op) rest).list
      = liveNames (liveStep m.list op) rest
    rw [hl2, hlist]

/-! ## Broadcast lemmas -/

theorem length_filterMap_snd (l : List (String × Option GoError)) :
    (l.filterMap Prod.snd).length
      = (l.filter (fun q => q.2.isSome)).length := by
  induction l with
  | nil => rfl
  | cons a t ih =>
    cases ha : a.2 with
    | none =>
      rw [List.filterMap_cons, ha, List.filter_cons_of_neg (by simp [ha])]
      exact ih
    | some e =>
      rw [List.filterMap_cons, ha, List.filter_cons_of_pos (by simp [ha])]
      simpa using ih

theorem trace_key_count (l : Reg) (f : String × Notifier → Option GoError)
    (hnd : (l.map Prod.fst).Nodup) {p : String × Notifier} (hp : p ∈ l) :
    ((l.map (fun q => (q.1, f q))).filter (fun r => r.1 == p.1)).length
      = 1 := by
  have hcomm :
      (l.map (fun q => (q.1, f q))).filter (fun r => r.1 == p.1)
        = (l.filter (fun q => q.1 == p.1)).map (fun q => (q.1, f q)) :=
    List.filter_map (p := fun r => r.1 == p.1) (fun q => (q.1, f q)) l
  rw [hcomm, List.length_map]
  rw [← List.countP_eq_length_filter]
  have hcount : l.countP (fun q => q.1 == p.1)
      = (l.map Prod.fst).countP (fun x => x == p.1) := by
    rw [List.countP_map]
    rfl
  rw [hcount]
  rw [← List.count_eq_countP]
  exact List.count_eq_one_of_mem hnd
    (List.mem_map.mpr ⟨p, hp, rfl⟩)

theorem filter_failing_comm (l : Reg) (f : String × Notifier → Option GoError) :
    (l.map (fun p => (p.1, f p))).filter (fun r => r.2.isSome)
      = (l.filter (fun p => (f p).isSome)).map (fun p => (p.1, f p)) :=
  List.filter_map (p := fun r => r.2.isSome) (fun p => (p.1, f p)) l

theorem broadcast_length_eq (l : Reg) (f : String × Notifier → Option GoError) :
    ((l.map (fun p => (p.1, f p))).filterMap Prod.snd).length
      = (l.filter (fun p => (f p).isSome)).length := by
  rw [length_filterMap_snd, filter_failing_comm, List.length_map]

theorem broadcast_nil_iff (l : Reg) (f : String × Notifier → Option GoError) :
    (l.map (fun p => (p.1, f p))).filterMap Prod.snd = []
      ↔ ∀ p ∈ l, f p = none := by
  rw [← List.length_eq_zero, broadcast_length_eq, List.length_eq_zero,
    List.filter_eq_nil_iff]
  constructor
  · intro h p hp
    have := h p hp
    simpa using this
  · intro h p hp
    simp [h p hp]

/-! ## Async broadcast lemmas -/

theorem map_provider_async (m : Manager) (ctx : Ctx) (text : String) :
    (m.broadcastAsync ctx text).map NotificationResult.provider = m.list := by
  obtain ⟨l⟩ := m
  show (l.map _).map NotificationResult.provider = l.map Prod.fst
  induction l with
  | nil => rfl
  | cons a t ih =>
    simp only [List.map_cons, List.cons.injEq]
    refine ⟨?_, ih⟩
    cases a.2.send ctx text <;> rfl

theorem map_provider_asyncWithOptions (m : Manager) (ctx : Ctx)
    (msg : Message) :
    (m.broadcastAsyncWithOptions ctx msg).map NotificationResult.provider
      = m.list := by
  obtain ⟨l⟩ := m
  show (l.map _).map NotificationResult.provider = l.map Prod.fst
  induction l with
  | nil => rfl
  | cons a t ih =>
    simp only [List.map_cons, List.cons.injEq]
    refine ⟨?_, ih⟩
    cases a.2.sendWithOptions ctx msg <;> rfl

/-! ## Setup lemmas -/

theorem setupLoop_cons (cs : Constructors) (m : Manager) (cfg : SetupConfig) :
    (∃ e, ∀ r : List SetupConfig, setupLoop cs m (cfg :: r) = (m, some e))
    ∨ (∃ m2 : Manager, ∀ r : List SetupConfig,
        setupLoop cs m (cfg :: r) = setupLoop cs m2 r) := by
  cases cfg with
  | unsupported t => exact .inl ⟨_, fun r => rfl⟩
  | custom n =>
    cases hr : m.register n with
    | error e =>
      exact .inl ⟨.wrapped "failed to register notifier" e,
        fun r => by simp [setupLoop, buildNotifier, hr]⟩
    | ok m2 =>
      exact .inr ⟨m2, fun r => by simp [setupLoop, buildNotifier, hr]⟩
  | slackPtr c =>
    cases hb : cs.newSlack c with
    | error e =>
      exact .inl ⟨.wrapped "failed to create notifier" e,
        fun r => by simp [setupLoop, buildNotifier, hb]⟩
    | ok nf =>
      cases hr : m.register nf with
      | error e =>
        exact .inl ⟨.wrapped "failed to register notifier" e,
          fun r => by simp [setupLoop, buildNotifier, hb, hr]⟩
      | ok m2 =>
        exact .inr ⟨m2, fun r => by simp [setupLoop, buildNotifier, hb, hr]⟩
  | slackVal c =>
    cases hb : cs.newSlack c with
    | error e =>
      exact .inl ⟨.wrapped "failed to create notifier" e,
        fun r => by simp [setupLoop, buildNotifier, hb]⟩
    | ok nf =>
      cases hr : m.register nf with
      | error e =>
        exact .inl ⟨.wrapped "failed to register notifier" e,
          fun r => by simp [setupLoop, buildNotifier, hb, hr]⟩
      | ok m2 =>
        exact .inr ⟨m2, fun r => by simp [setupLoop, buildNotifier, hb, hr]⟩
  | telegramPtr c =>
    cases hb : cs.newTelegram c with
    | error e =>
      exact .inl ⟨.wrapped "failed to create notifier" e,
        fun r => by simp [setupLoop, buildNotifier, hb]⟩
    | ok nf =>
      cases hr : m.register nf with
      | error e =>
        exact .inl ⟨.wrapped "failed to register notifier" e,
          fun r => by simp [setupLoop, buildNotifier, hb, hr]⟩
      | ok m2 =>
        exact .inr ⟨m2, fun r => by simp [setupLoop, buildNotifier, hb, hr]⟩
  | telegramVal c =>
    cases hb : cs.newTelegram c with
    | error e =>
      exact .inl ⟨.wrapped "failed to create notifier" e,
        fun r => by simp [setupLoop, buildNotifier, hb]⟩
    | ok nf =>
      cases hr : m.register nf with
      | error e =>
        exact .inl ⟨.wrapped "failed to register notifier" e,
          fun r => by simp [setupLoop, buildNotifier, hb, hr]⟩
      | ok m2 =>
        exact .inr ⟨m2, fun r => by simp [setupLoop, buildNotifier, hb, hr]⟩

theorem setupLoop_append (cs : Constructors) (xs ys : List SetupConfig) :
    ∀ m m1 : Manager, setupLoop cs m xs = (m1, none) →
      setupLoop cs m (xs ++ ys) = setupLoop cs m1 ys := by
  induction xs with
  | nil =>
    intro m m1 h
    simp only [setupLoop, Prod.mk.injEq] at h
    rw [List.nil_append, h.1]
  | cons cfg rest ih =>
    intro m m1 h
    rcases setupLoop_cons cs m cfg with ⟨e, he⟩ | ⟨m2, hm2⟩
    · rw [he rest] at h
      simp at h
    · rw [List.cons_append, hm2 (rest ++ ys)]
      rw [hm2 rest] at h
      exact ih m2 m1 h

theorem setupLoop_fail_head (cs : Constructors) (m : Manager)
    (cfg : SetupConfig) (rest : List SetupConfig)
    (h : stepFails cs m cfg) :
    ∃ e, setupLoop cs m (cfg :: rest) = (m, some e) := by
  cases cfg with
  | unsupported t =>
    exact ⟨.mk ("unsupported config type: " ++ t), by simp [setupLoop]⟩
  | custom n =>
    simp only [stepFails] at h
    rcases h with ⟨e, he⟩ | ⟨nf, e, hok, hreg⟩
    · simp [buildNotifier] at he
    · simp only [buildNotifier, Except.ok.injEq] at hok
      subst hok
      exact ⟨.wrapped "failed to register notifier" e, by
        simp [setupLoop, buildNotifier, hreg]⟩
  | slackPtr c =>
    simp only [stepFails] at h
    rcases h with ⟨e, he⟩ | ⟨nf, e, hok, hreg⟩
    · simp only [buildNotifier] at he
      exact ⟨.wrapped "failed to create notifier" e, by
        simp [setupLoop, buildNotifier, he]⟩
    · simp only [buildNotifier] at hok
      exact ⟨.wrapped "failed to register notifier" e, by
        simp [setupLoop, buildNotifier, hok, hreg]⟩
  | slackVal c =>
    simp only [stepFails] at h
    rcases h with ⟨e, he⟩ | ⟨nf, e, hok, hreg⟩
    · simp only [buildNotifier] at he
      exact ⟨.wrapped "failed to create notifier" e, by
        simp [setupLoop, buildNotifier, he]⟩
    · simp only [buildNotifier] at hok
      exact ⟨.wrapped "failed to register notifier" e, by
        simp [setupLoop, buildNotifier, hok, hreg]⟩
  | telegramPtr c =>
    simp only [stepFails] at h
    rcases h with ⟨e, he⟩ | ⟨nf, e, hok, hreg⟩
    · simp only [buildNotifier] at he
      exact ⟨.wrapped "failed to create notifier" e, by
        simp [setupLoop, buildNotifier, he]⟩
    · simp only [buildNotifier] at hok
      exact ⟨.wrapped "failed to register notifier" e, by
        simp [setupLoop, buildNotifier, hok, hreg]⟩
  | telegramVal c =>
    simp only [stepFails] at h
    rcases h with ⟨e, he⟩ | ⟨nf, e, hok, hreg⟩
    · simp only [buildNotifier] at he
      exact ⟨.wrapped "failed to create notifier" e, by
        simp [setupLoop, buildNotifier, he]⟩
    · simp only [buildNotifier] at hok
      exact ⟨.wrapped "failed to register notifier" e, by
        simp [setupLoop, buildNotifier, hok, hreg]⟩

/-! ## Global singleton lemmas -/

/-- The reachable-state invariant of `global.go`: a nil `globalManager`
implies a fresh `once` (they are only reset together by `Reset`). -/
def GlobalInv (s : GlobalState) : Prop :=
  s.globalManager = none → s.onceDone = false

theorem globalInv_start : GlobalInv GlobalState.start := fun _ => rfl

theorem globalInv_initOp {s : GlobalState} (h : GlobalInv s) :
    GlobalInv (initOp s) := by
  unfold initOp
  by_cases hd : s.onceDone
  · rw [if_pos hd]; exact h
  · rw [if_neg hd]; intro hc; exact absurd hc (by simp)

theorem globalOp_isSome {s : GlobalState} (h : GlobalInv s) :
    ((globalOp s).2).isSome = true := by
  unfold globalOp
  cases hm : s.globalManager with
  | some m => rfl
  | none =>
    have hd : s.onceDone = false := h hm
    simp [initOp, hd]

theorem globalInv_globalOp {s : GlobalState} (h : GlobalInv s) :
    GlobalInv (globalOp s).1 := by
  unfold globalOp
  cases hm : s.globalManager with
  | some m => simpa [hm] using h
  | none => exact globalInv_initOp h

theorem globalInv_step {s : GlobalState} (h : GlobalInv s) (op : GlobalOp) :
    GlobalInv (globalStep s op) := by
  cases op with
  | initCall => exact globalInv_initOp h
  | resetCall => exact globalInv_start
  | setupCall cs cfgs =>
    simp only [globalStep]
    cases hm : (initOp s).globalManager with
    | none => simpa [hm] using globalInv_initOp h
    | some m => intro hc; exact absurd hc (by simp)
  | registerCall n =>
    simp only [globalStep]
    cases hm : (globalOp s).2 with
    | none => simpa [hm] using globalInv_globalOp h
    | some m => intro hc; exact absurd hc (by simp)
  | unregisterCall name =>
    simp only [globalStep]
    cases hm : (globalOp s).2 with
    | none => simpa [hm] using globalInv_globalOp h
    | some m => intro hc; exact absurd hc (by simp)
  | useGlobal => exact globalInv_globalOp h

theorem globalInv_run (ops : List GlobalOp) : GlobalInv (runGlobal ops) := by
  suffices h : ∀ s : GlobalState, GlobalInv s →
      GlobalInv (ops.foldl globalStep s) from h _ globalInv_start
  induction ops with
  | nil => exact fun s hs => hs
  | cons op rest ih => exact fun s hs => ih _ (globalInv_step hs op)

/-- A notifier's behaviour honours context cancellation (the Notifier
contract of spec §4.1/§5: the backend takes a cancellable context and
must honor it, returning a cancellation-kind error). -/
def Notifier.honorsCancellation (nf : Notifier) : Prop :=
  (∀ ctx text, ctx.canceled = true →
    ∃ e, nf.send ctx text = some e ∧ e.isCancel = true)
  ∧ (∀ ctx msg, ctx.canceled = true →
    ∃ e, nf.sendWithOptions ctx msg = some e ∧ e.isCancel = true)

/-- A notifier whose own `NotificationError`s name itself as provider
(as `mockGlobalNotifier` does: `&NotificationError{Provider: m.name}`). -/
def Notifier.wellNamed (nf : Notifier) : Prop :=
  (∀ ctx text p s c,
    nf.send ctx text = some (.notification p s c) → p = nf.name)
  ∧ (∀ ctx msg p s c,
    nf.sendWithOptions ctx msg = some (.notification p s c) → p = nf.name)

theorem wrapIfNeeded_isCancel (provider : String) (e : GoError) :
    (wrapIfNeeded provider e).isCancel = e.isCancel := by
  cases e <;> rfl

/-! ## Claims -/

/-- C3: `Register(notifier)` fails with a configuration error
whenever the notifier's `Name()` is empty or a notifier is already
registered under that name; in the duplicate case the second attempt
fails, the registry is unchanged, and `Get` on that name still returns
the first notifier. -/
theorem register_rejects_empty_or_duplicate (m : Manager) (n n0 : Notifier) :
    (n.name = "" → ∃ e, m.register n = .error e)
    ∧ (m.get n.name = some n0 →
        (∃ e, m.register n = .error e)
        ∧ applyOp m (.reg n) = m
        ∧ (applyOp m (.reg n)).get n.name = some n0) := by
  constructor
  · intro h
    exact ⟨_, register_error_of_empty m n h⟩
  · intro h
    have hs : (m.get n.name).isSome := by rw [h]; rfl
    obtain ⟨e, he⟩ := register_error_of_mem m n hs
    have happ : applyOp m (.reg n) = m := by simp [applyOp, he]
    exact ⟨⟨e, he⟩, happ, by rw [happ]; exact h⟩

/-- Witness for C3: in a registry holding a notifier named "a", a second
registration under "a" fails, leaves the registry unchanged, and `Get`
still returns the first notifier; registering an empty name fails. -/
theorem register_rejects_empty_or_duplicate_witness :
    (∃ e, (Manager.mk [("a", mockGlobalNotifier "a" false)]).register
        (mockGlobalNotifier "a" true) = .error e)
    ∧ applyOp (Manager.mk [("a", mockGlobalNotifier "a" false)])
        (.reg (mockGlobalNotifier "a" true))
        = Manager.mk [("a", mockGlobalNotifier "a" false)]
    ∧ (applyOp (Manager.mk [("a", mockGlobalNotifier "a" false)])
        (.reg (mockGlobalNotifier "a" true))).get "a"
        = some (mockGlobalNotifier "a" false)
    ∧ (∃ e, Manager.new.register (mockGlobalNotifier "" false) = .error e) := by
  have h := register_rejects_empty_or_duplicate
    (Manager.mk [("a", mockGlobalNotifier "a" false)])
    (mockGlobalNotifier "a" true) (mockGlobalNotifier "a" false)
  have h2 := register_rejects_empty_or_duplicate
    Manager.new (mockGlobalNotifier "" false) (mockGlobalNotifier "" false)
  obtain ⟨he, hd, hg⟩ := h.2 rfl
  exact ⟨he, hd, hg, h2.1 rfl⟩

/-- C4: after every finite sequence of `Register`/`Unregister` calls,
`List()` returns exactly the names successfully registered and not
subsequently unregistered, with no duplicates, and `Get(name)` finds a
notifier iff the name is in this set (so no name maps to more than one
live notifier). -/
theorem registry_exactness (ops : List RegOp) :
    (applyOps Manager.new ops).list = liveNames [] ops
    ∧ (applyOps Manager.new ops).list.Nodup
    ∧ ∀ name, ((applyOps Manager.new ops).get name).isSome
        ↔ name ∈ (applyOps Manager.new ops).list := by
  obtain ⟨hl, hw⟩ := applyOps_list ops Manager.new wf_new
  exact ⟨hl, hw.1, fun name => get_isSome_iff_mem _ name⟩

/-- C6: `Unregister(name)` removes the entry with that name if
present, is a no-op (not an error) when the name is absent, and leaves
every other entry unchanged. -/
theorem unregister_semantics (m : Manager) (name other : String) :
    (m.unregister name).get name = none
    ∧ (other ≠ name → (m.unregister name).get other = m.get other)
    ∧ (name ∉ m.list → m.unregister name = m) := by
  exact ⟨unregister_get_self m name,
    fun h => unregister_get_other m h,
    fun h => unregister_absent m h⟩

/-- Witness for C6: unregistering an absent name "zzz" finds nothing
under it, leaves "b" untouched, and is a no-op on the whole registry. -/
theorem unregister_semantics_witness :
    ((Manager.mk [("a", mockGlobalNotifier "a" false),
        ("b", mockGlobalNotifier "b" false)]).unregister "zzz").get "zzz"
        = none
    ∧ ((Manager.mk [("a", mockGlobalNotifier "a" false),
        ("b", mockGlobalNotifier "b" false)]).unregister "zzz").get "b"
        = (Manager.mk [("a", mockGlobalNotifier "a" false),
            ("b", mockGlobalNotifier "b" false)]).get "b"
    ∧ (Manager.mk [("a", mockGlobalNotifier "a" false),
        ("b", mockGlobalNotifier "b" false)]).unregister "zzz"
        = Manager.mk [("a", mockGlobalNotifier "a" false),
            ("b", mockGlobalNotifier "b" false)] := by
  have h := unregister_semantics
    (Manager.mk [("a", mockGlobalNotifier "a" false),
      ("b", mockGlobalNotifier "b" false)]) "zzz" "b"
  exact ⟨h.1, h.2.1 (by decide), h.2.2 (by decide)⟩

/-- C5: if no notifier is registered under a name, `Send` and
`SendWithOptions` return a not-found error without invoking any
notifier (empty invocation trace), and `Get` returns found=false. -/
theorem send_not_found (m : Manager) (ctx : Ctx) (provider text : String)
    (msg : Message) (habs : provider ∉ m.list) :
    m.get provider = none
    ∧ m.sendT ctx provider text
        = (some (.notification provider "notifier not found" none), [])
    ∧ m.sendWithOptionsT ctx provider msg
        = (some (.notification provider "notifier not found" none), []) := by
  have hg : m.get provider = none := by
    cases hg : m.get provider with
    | none => rfl
    | some q =>
      exact absurd ((get_isSome_iff_mem m provider).mp (by rw [hg]; rfl)) habs
  refine ⟨hg, ?_, ?_⟩
  · simp [Manager.sendT, hg]
  · simp [Manager.sendWithOptionsT, hg]

/-- Witness for C5: on an empty registry, sending to "nonexistent"
returns the not-found error, invokes nothing, and `Get` misses. -/
theorem send_not_found_witness :
    Manager.new.get "nonexistent" = none
    ∧ Manager.new.sendT Ctx.background "nonexistent" "x"
        = (some (.notification "nonexistent" "notifier not found" none), [])
    ∧ Manager.new.sendWithOptionsT Ctx.background "nonexistent" ⟨"x", "", "", "", [], []⟩
        = (some (.notification "nonexistent" "notifier not found" none), []) :=
  send_not_found Manager.new Ctx.background "nonexistent" "x"
    ⟨"x", "", "", "", [], []⟩ (by decide)

/-- C1: for every registry and every `Broadcast`/`BroadcastWithOptions`
call, every currently-registered notifier's send is attempted exactly
once (its name occurs exactly once in the broadcast trace, whatever the
other notifiers return), the returned error sequence has exactly one
entry per notifier whose send failed, and it is empty iff all succeeded;
the call always returns (it is a total function returning the error
collection, even when every notifier failed). -/
theorem broadcast_partial_failure (m : Manager) (ctx : Ctx) (text : String)
    (msg : Message) (hw : m.Wf) :
    (∀ p ∈ m.notifiers,
      ((m.broadcastTrace ctx text).filter (fun r => r.1 == p.1)).length = 1
      ∧ ((m.broadcastWithOptionsTrace ctx msg).filter
          (fun r => r.1 == p.1)).length = 1)
    ∧ (m.broadcast ctx text).length
        = (m.notifiers.filter (fun p => (p.2.send ctx text).isSome)).length
    ∧ (m.broadcastWithOptions ctx msg).length
        = (m.notifiers.filter
            (fun p => (p.2.sendWithOptions ctx msg).isSome)).length
    ∧ (m.broadcast ctx text = [] ↔
        ∀ p ∈ m.notifiers, p.2.send ctx text = none)
    ∧ (m.broadcastWithOptions ctx msg = [] ↔
        ∀ p ∈ m.notifiers, p.2.sendWithOptions ctx msg = none) := by
  refine ⟨?_, ?_, ?_, ?_, ?_⟩
  · intro p hp
    exact ⟨trace_key_count m.notifiers (fun q => q.2.send ctx text) hw.1 hp,
      trace_key_count m.notifiers (fun q => q.2.sendWithOptions ctx msg)
        hw.1 hp⟩
  · exact broadcast_length_eq m.notifiers (fun q => q.2.send ctx text)
  · exact broadcast_length_eq m.notifiers
      (fun q => q.2.sendWithOptions ctx msg)
  · exact broadcast_nil_iff m.notifiers (fun q => q.2.send ctx text)
  · exact broadcast_nil_iff m.notifiers
      (fun q => q.2.sendWithOptions ctx msg)

/-- Witness for C1 (the scenario of `TestGlobalBroadcastWithErrors`):
with failing "mock1" and succeeding "mock2" registered, `Broadcast`
returns one error, the error list is not empty, and each name occurs
exactly once in the trace. -/
theorem broadcast_partial_failure_witness :
    ((Manager.mk [("mock1", mockGlobalNotifier "mock1" true),
        ("mock2", mockGlobalNotifier "mock2" false)]).broadcast
        Ctx.background "test").length = 1
    ∧ ¬ ((Manager.mk [("mock1", mockGlobalNotifier "mock1" true),
        ("mock2", mockGlobalNotifier "mock2" false)]).broadcast
        Ctx.background "test" = [])
    ∧ (((Manager.mk [("mock1", mockGlobalNotifier "mock1" true),
        ("mock2", mockGlobalNotifier "mock2" false)]).broadcastTrace
        Ctx.background "test").filter (fun r => r.1 == "mock2")).length
        = 1 := by
  have h := broadcast_partial_failure
    (Manager.mk [("mock1", mockGlobalNotifier "mock1" true),
      ("mock2", mockGlobalNotifier "mock2" false)])
    Ctx.background "test" ⟨"test", "", "", "", [], []⟩
    ⟨by decide, by decide⟩
  refine ⟨?_, ?_, ?_⟩
  · rw [h.2.1]; decide
  · intro hnil
    have hall := h.2.2.2.1.mp hnil
    have := hall ("mock1", mockGlobalNotifier "mock1" true) (by
      exact List.mem_cons_self _ _)
    simp [mockGlobalNotifier] at this
  · exact (h.1 ("mock2", mockGlobalNotifier "mock2" false)
      (by exact List.mem_cons_of_mem _ (List.mem_cons_self _ _))).1

/-- C2: draining `BroadcastAsync`/`BroadcastAsyncWithOptions` yields
exactly N results for N registered notifiers, one per distinct
registered name with no duplicates and no omissions regardless of which
notifiers fail, and with N = 0 the stream is empty (closes immediately). -/
theorem broadcastAsync_completeness (m : Manager) (ctx : Ctx)
    (text : String) (msg : Message) (hw : m.Wf) :
    (m.broadcastAsync ctx text).length = m.list.length
    ∧ (m.broadcastAsync ctx text).map NotificationResult.provider = m.list
    ∧ ((m.broadcastAsync ctx text).map NotificationResult.provider).Nodup
    ∧ (m.notifiers = [] → m.broadcastAsync ctx text = [])
    ∧ (m.broadcastAsyncWithOptions ctx msg).length = m.list.length
    ∧ (m.broadcastAsyncWithOptions ctx msg).map NotificationResult.provider
        = m.list
    ∧ ((m.broadcastAsyncWithOptions ctx msg).map
        NotificationResult.provider).Nodup
    ∧ (m.notifiers = [] → m.broadcastAsyncWithOptions ctx msg = []) := by
  have h1 := map_provider_async m ctx text
  have h2 := map_provider_asyncWithOptions m ctx msg
  refine ⟨?_, h1, ?_, ?_, ?_, h2, ?_, ?_⟩
  · rw [← h1, List.length_map]
  · rw [h1]; exact hw.1
  · intro hnil
    simp [Manager.broadcastAsync, hnil]
  · rw [← h2, List.length_map]
  · rw [h2]; exact hw.1
  · intro hnil
    simp [Manager.broadcastAsyncWithOptions, hnil]

/-- Witness for C2 (the scenario of `TestGlobalBroadcastAsync` /
`TestGlobalBroadcastAsyncWithOptions`, plus the N = 0 case): two
registered notifiers yield exactly two results named "mock1", "mock2";
an empty registry yields an empty (immediately closed) stream. -/
theorem broadcastAsync_completeness_witness :
    ((Manager.mk [("mock1", mockGlobalNotifier "mock1" false),
        ("mock2", mockGlobalNotifier "mock2" false)]).broadcastAsync
        Ctx.background "async message").length = 2
    ∧ ((Manager.mk [("mock1", mockGlobalNotifier "mock1" false),
        ("mock2", mockGlobalNotifier "mock2" false)]).broadcastAsync
        Ctx.background "async message").map NotificationResult.provider
        = ["mock1", "mock2"]
    ∧ Manager.new.broadcastAsync Ctx.background "async message" = [] := by
  have h := broadcastAsync_completeness
    (Manager.mk [("mock1", mockGlobalNotifier "mock1" false),
      ("mock2", mockGlobalNotifier "mock2" false)])
    Ctx.background "async message" ⟨"async message", "", "", "", [], []⟩
    ⟨by decide, by decide⟩
  have h0 := broadcastAsync_completeness Manager.new Ctx.background
    "async message" ⟨"async message", "", "", "", [], []⟩ wf_new
  exact ⟨h.1, h.2.1, h0.2.2.2.1 rfl⟩

/-- C7: if the supplied context is already canceled when `Send` or
`SendWithOptions` is called on a registered provider (whose backend
honours cancellation, as the Notifier contract requires), the call
returns an error distinguishable as cancellation-kind. -/
theorem send_canceled_context (m : Manager) (ctx : Ctx)
    (provider text : String) (msg : Message) (nf : Notifier)
    (hget : m.get provider = some nf) (hcan : ctx.canceled = true)
    (hh : nf.honorsCancellation) :
    (∃ e, m.send ctx provider text = some e ∧ e.isCancel = true)
    ∧ (∃ e, m.sendWithOptions ctx provider msg = some e
        ∧ e.isCancel = true) := by
  obtain ⟨e1, he1, hc1⟩ := hh.1 ctx text hcan
  obtain ⟨e2, he2, hc2⟩ := hh.2 ctx msg hcan
  constructor
  · refine ⟨wrapIfNeeded provider e1, ?_, ?_⟩
    · simp [Manager.send, Manager.sendT, hget, he1, wrapResult]
    · rw [wrapIfNeeded_isCancel]; exact hc1
  · refine ⟨wrapIfNeeded provider e2, ?_, ?_⟩
    · simp [Manager.sendWithOptions, Manager.sendWithOptionsT, hget, he2,
        wrapResult]
    · rw [wrapIfNeeded_isCancel]; exact hc2

/-- Witness for C7: a backend that checks its context first, called with
a canceled context, makes `Send`/`SendWithOptions` return a
cancellation-kind error. -/
theorem send_canceled_context_witness :
    (∃ e, (Manager.mk [("c", Notifier.mk "c"
        (fun ctx _ => if ctx.canceled then some .canceledErr else none)
        (fun ctx _ => if ctx.canceled then some .canceledErr else none))]).send
        ⟨true⟩ "c" "x" = some e ∧ e.isCancel = true)
    ∧ (∃ e, (Manager.mk [("c", Notifier.mk "c"
        (fun ctx _ => if ctx.canceled then some .canceledErr else none)
        (fun ctx _ => if ctx.canceled then some .canceledErr else none))]).sendWithOptions
        ⟨true⟩ "c" ⟨"x", "", "", "", [], []⟩ = some e
        ∧ e.isCancel = true) :=
  send_canceled_context
    (Manager.mk [("c", Notifier.mk "c"
      (fun ctx _ => if ctx.canceled then some .canceledErr else none)
      (fun ctx _ => if ctx.canceled then some .canceledErr else none))])
    ⟨true⟩ "c" "x" ⟨"x", "", "", "", [], []⟩
    (Notifier.mk "c"
      (fun ctx _ => if ctx.canceled then some .canceledErr else none)
      (fun ctx _ => if ctx.canceled then some .canceledErr else none))
    rfl rfl
    ⟨fun ctx text h => ⟨.canceledErr, by simp [h], rfl⟩,
     fun ctx msg h => ⟨.canceledErr, by simp [h], rfl⟩⟩

/-- C8: every error surfaced by `Send` and `SendWithOptions` — a
lookup miss, a backend delivery failure, or cancellation — is (or, for a
non-NotificationError backend failure, wraps as cause) a
`NotificationError` carrying the offending provider name; a backend
error that is not already a NotificationError is wrapped with the
underlying cause accessible via unwrapping. -/
theorem send_errors_are_notification_errors (m : Manager) (ctx : Ctx)
    (provider text : String) (msg : Message) (hw : m.Wf)
    (hwn : ∀ nf, m.get provider = some nf → nf.wellNamed) :
    (∀ e, m.send ctx provider text = some e →
        ∃ s c, e = GoError.notification provider s c)
    ∧ (∀ e, m.sendWithOptions ctx provider msg = some e →
        ∃ s c, e = GoError.notification provider s c)
    ∧ (∀ nf e0, m.get provider = some nf → nf.send ctx text = some e0 →
        e0.isNotificationErr = false →
        m.send ctx provider text = some (.notification provider
          "failed to send notification" (some e0))) := by
  refine ⟨?_, ?_, ?_⟩
  · intro e he
    cases hget : m.get provider with
    | none =>
      simp only [Manager.send, Manager.sendT, hget, Option.some.injEq] at he
      exact ⟨"notifier not found", none, he.symm⟩
    | some nf =>
      have hname := get_name_eq m hw hget
      simp only [Manager.send, Manager.sendT, hget] at he
      cases hs : nf.send ctx text with
      | none => rw [hs] at he; simp [wrapResult] at he
      | some e0 =>
        rw [hs] at he
        simp only [wrapResult, Option.some.injEq] at he
        cases e0 with
        | notification p s c =>
          have hp : p = provider := by
            rw [← hname]
            exact (hwn nf hget).1 ctx text p s c hs
          exact ⟨s, c, by rw [← he, wrapIfNeeded, hp]⟩
        | mk t => exact ⟨_, _, he.symm⟩
        | canceledErr => exact ⟨_, _, he.symm⟩
        | wrapped s c => exact ⟨_, _, he.symm⟩
  · intro e he
    cases hget : m.get provider with
    | none =>
      simp only [Manager.sendWithOptions, Manager.sendWithOptionsT, hget,
        Option.some.injEq] at he
      exact ⟨"notifier not found", none, he.symm⟩
    | some nf =>
      have hname := get_name_eq m hw hget
      simp only [Manager.sendWithOptions, Manager.sendWithOptionsT,
        hget] at he
      cases hs : nf.sendWithOptions ctx msg with
      | none => rw [hs] at he; simp [wrapResult] at he
      | some e0 =>
        rw [hs] at he
        simp only [wrapResult, Option.some.injEq] at he
        cases e0 with
        | notification p s c =>
          have hp : p = provider := by
            rw [← hname]
            exact (hwn nf hget).2 ctx msg p s c hs
          exact ⟨s, c, by rw [← he, wrapIfNeeded, hp]⟩
        | mk t => exact ⟨_, _, he.symm⟩
        | canceledErr => exact ⟨_, _, he.symm⟩
        | wrapped s c => exact ⟨_, _, he.symm⟩
  · intro nf e0 hget hs hshape
    simp only [Manager.send, Manager.sendT, hget, hs, wrapResult,
      Option.some.injEq]
    cases e0 with
    | notification p s c => simp [GoError.isNotificationErr] at hshape
    | mk t => rfl
    | canceledErr => rfl
    | wrapped s c => rfl

/-- Witness for C8: with a failing mock registered under "mock1" (its
error is a NotificationError naming itself) and a lookup of a missing
provider, the surfaced errors are NotificationErrors naming the
provider; a plain backend error is wrapped with its cause. -/
theorem send_errors_are_notification_errors_witness :
    (∃ s c, GoError.notification "mock1" "mock error" none
        = GoError.notification "mock1" s c)
    ∧ (Manager.mk [("plain", Notifier.mk "plain"
          (fun _ _ => some (.mk "boom")) (fun _ _ => some (.mk "boom")))]).send
        Ctx.background "plain" "hi"
        = some (.notification "plain" "failed to send notification"
            (some (.mk "boom"))) := by
  have h1 := send_errors_are_notification_errors
    (Manager.mk [("mock1", mockGlobalNotifier "mock1" true)])
    Ctx.background "mock1" "x" ⟨"x", "", "", "", [], []⟩
    ⟨by decide, by decide⟩
    (fun nf hget => by
      rw [show (Manager.mk [("mock1", mockGlobalNotifier "mock1" true)]).get
          "mock1" = some (mockGlobalNotifier "mock1" true) from rfl] at hget
      cases hget
      exact ⟨fun ctx text p s c h => by
          simp [mockGlobalNotifier] at h
          exact h.1.symm,
        fun ctx msg p s c h => by
          simp [mockGlobalNotifier] at h
          exact h.1.symm⟩)
  have h2 := send_errors_are_notification_errors
    (Manager.mk [("plain", Notifier.mk "plain"
      (fun _ _ => some (.mk "boom")) (fun _ _ => some (.mk "boom")))])
    Ctx.background "plain" "hi" ⟨"hi", "", "", "", [], []⟩
    ⟨by decide, by decide⟩
    (fun nf hget => by
      rw [show (Manager.mk [("plain", Notifier.mk "plain"
          (fun _ _ => some (.mk "boom"))
          (fun _ _ => some (.mk "boom")))]).get "plain"
          = some (Notifier.mk "plain" (fun _ _ => some (.mk "boom"))
              (fun _ _ => some (.mk "boom"))) from rfl] at hget
      cases hget
      exact ⟨fun ctx text p s c h => by simp at h,
        fun ctx msg p s c h => by simp at h⟩)
  refine ⟨h1.1 (.notification "mock1" "mock error" none) rfl, ?_⟩
  exact h2.2.2 (Notifier.mk "plain" (fun _ _ => some (.mk "boom"))
      (fun _ _ => some (.mk "boom"))) (.mk "boom") rfl rfl rfl

/-- C9: `Setup(configs...)` processes its configs strictly in order
and is not atomic: after a prefix of configs that registered
successfully, the first unsupported config, constructor failure or
registration failure makes the whole call return an error immediately
while the manager keeps exactly the registrations from the prefix (the
remaining configs are never processed); a value that already implements
`Notifier` is registered directly, without invoking any constructor
(the result does not depend on the constructor set). -/
theorem setup_sequential_not_atomic (cs : Constructors) (m m1 : Manager)
    (good rest : List SetupConfig) (bad : SetupConfig)
    (hgood : setupLoop cs m good = (m1, none))
    (hbad : stepFails cs m1 bad) :
    (∃ e, setupLoop cs m (good ++ bad :: rest) = (m1, some e))
    ∧ (∀ n m2, m1.register n = .ok m2 →
        ∀ cs2, setupLoop cs2 m1 [SetupConfig.custom n] = (m2, none)) := by
  constructor
  · obtain ⟨e, he⟩ := setupLoop_fail_head cs m1 bad rest hbad
    exact ⟨e, by rw [setupLoop_append cs good (bad :: rest) m m1 hgood, he]⟩
  · intro n m2 hreg cs2
    simp [setupLoop, buildNotifier, hreg]

/-- Witness for C9 (the scenarios of `TestGlobalSetupWithInvalidConfig`
and `TestGlobalSetupWithCustomNotifier`): a custom notifier followed by
an unsupported config — `Setup` errors but keeps the custom notifier
registered, and the custom notifier was registered without construction
(under a constructor set that always fails for Slack). -/
theorem setup_sequential_not_atomic_witness :
    (∃ e, setupLoop
        ⟨fun _ => .error (.mk "slack boom"),
         fun _ => .ok (mockGlobalNotifier "telegram" false)⟩
        Manager.new
        ([SetupConfig.custom (mockGlobalNotifier "custom" false)]
          ++ SetupConfig.unsupported "string" :: [])
        = (Manager.mk [("custom", mockGlobalNotifier "custom" false)],
            some e))
    ∧ setupLoop
        ⟨fun _ => .error (.mk "slack boom"),
         fun _ => .ok (mockGlobalNotifier "telegram" false)⟩
        (Manager.mk [("custom", mockGlobalNotifier "custom" false)])
        [SetupConfig.custom (mockGlobalNotifier "n2" false)]
        = (Manager.mk [("custom", mockGlobalNotifier "custom" false),
            ("n2", mockGlobalNotifier "n2" false)], none) := by
  have h := setup_sequential_not_atomic
    ⟨fun _ => .error (.mk "slack boom"),
     fun _ => .ok (mockGlobalNotifier "telegram" false)⟩
    Manager.new
    (Manager.mk [("custom", mockGlobalNotifier "custom" false)])
    [SetupConfig.custom (mockGlobalNotifier "custom" false)] []
    (SetupConfig.unsupported "string") rfl trivial
  exact ⟨h.1, h.2 (mockGlobalNotifier "n2" false)
    (Manager.mk [("custom", mockGlobalNotifier "custom" false),
      ("n2", mockGlobalNotifier "n2" false)]) rfl
    ⟨fun _ => .error (.mk "slack boom"),
     fun _ => .ok (mockGlobalNotifier "telegram" false)⟩⟩

/-- C10: `Global()` never returns nil: after every finite sequence
of package-level calls from process start (including none at all, and
including `Reset()`), `Global()` — and hence every package-level wrapper
that goes through it — obtains a manager (`isSome`); right after a
`Reset()` the manager obtained is a fresh empty one (`Manager.new`). -/
theorem Global_never_nil (ops : List GlobalOp) :
    ((globalOp (runGlobal ops)).2).isSome = true
    ∧ (globalOp (runGlobal (ops ++ [GlobalOp.resetCall]))).2
        = some Manager.new := by
  refine ⟨globalOp_isSome (globalInv_run ops), ?_⟩
  have hreset : runGlobal (ops ++ [GlobalOp.resetCall])
      = GlobalState.start := by
    unfold runGlobal
    rw [List.foldl_append]
    rfl
  rw [hreset]
  rfl

end Notify
